import Mathlib

/-!
Verification development for the dtu_mlops tutorial notebooks.

The two source files are Jupyter notebooks:
* `5_Saving_and_Loading_Models` — builds `fc_model.Network(784, 10, [512, 256, 128])`,
  saves a checkpoint dictionary and reloads it with `load_checkpoint`;
* `3_Training_Neural_Networks` — builds `nn.Sequential` classifiers and
  runs the canonical zero_grad / forward / loss / backward / step loop.

Tensors are modelled as a shape together with flat integer data (only equality of
parameter tensors matters to the claims, never numeric kernels).  The pieces of
the program that live in `fc_model.py` or inside the PyTorch framework (and hence
outside the repository sources) are modelled from the spec and from the behaviour
the notebooks demonstrate; each such definition says so in its doc comment.
-/

/-! ### Decimal rendering of naturals

The state-dict keys contain a decimal layer index (`hidden_layers.0.weight`).
`natRepr` renders a natural number the way Python's `str` does; the decoder
`decodeDigits` witnesses injectivity.
-/

/-- The decimal digit character for `d % 10`, as produced by Python's `str`. -/
def digitChar (d : Nat) : Char :=
  if d = 0 then '0' else if d = 1 then '1' else if d = 2 then '2'
  else if d = 3 then '3' else if d = 4 then '4' else if d = 5 then '5'
  else if d = 6 then '6' else if d = 7 then '7' else if d = 8 then '8' else '9'

/-- Numeric value of a decimal digit character (left inverse of `digitChar`). -/
def digitVal (c : Char) : Nat :=
  if c = '0' then 0 else if c = '1' then 1 else if c = '2' then 2
  else if c = '3' then 3 else if c = '4' then 4 else if c = '5' then 5
  else if c = '6' then 6 else if c = '7' then 7 else if c = '8' then 8 else 9

/-- Accumulator-style decimal rendering: digits of `n` followed by `acc`. -/
def natReprAux : Nat → List Char → List Char
  | 0, acc => acc
  | n + 1, acc => natReprAux ((n + 1) / 10) (digitChar ((n + 1) % 10) :: acc)
decreasing_by exact Nat.div_lt_self (Nat.succ_pos n) (by decide)

/-- Decimal rendering of a natural number, matching Python's `str`. -/
def natRepr (n : Nat) : String :=
  if n = 0 then "0" else ⟨natReprAux n []⟩

/-- Decode a digit string back to a natural number. -/
def decodeDigits (cs : List Char) : Nat :=
  cs.foldl (fun a c => 10 * a + digitVal c) 0

theorem digitVal_digitChar {d : Nat} (h : d < 10) : digitVal (digitChar d) = d := by
  interval_cases d <;> decide

theorem natReprAux_acc (n : Nat) (acc : List Char) :
    natReprAux n acc = natReprAux n [] ++ acc := by
  induction n using Nat.strong_induction_on generalizing acc with
  | _ n ih =>
    match n with
    | 0 => simp [natReprAux]
    | m + 1 =>
      rw [natReprAux, natReprAux]
      rw [ih ((m + 1) / 10) (Nat.div_lt_self (Nat.succ_pos m) (by decide))
          (digitChar ((m + 1) % 10) :: acc),
        ih ((m + 1) / 10) (Nat.div_lt_self (Nat.succ_pos m) (by decide))
          [digitChar ((m + 1) % 10)],
        List.append_assoc]
      rfl

theorem decode_foldl_append (xs : List Char) (c : Char) (a : Nat) :
    (xs ++ [c]).foldl (fun a c => 10 * a + digitVal c) a =
      10 * (xs.foldl (fun a c => 10 * a + digitVal c) a) + digitVal c := by
  simp [List.foldl_append]

theorem decode_natReprAux (n : Nat) (h : 0 < n) :
    decodeDigits (natReprAux n []) = n := by
  induction n using Nat.strong_induction_on with
  | _ n ih =>
    match n with
    | m + 1 =>
      rw [natReprAux, natReprAux_acc]
      by_cases h10 : (m + 1) / 10 = 0
      · rw [h10]
        have hlt : m + 1 < 10 := by omega
        have : (m + 1) % 10 = m + 1 := Nat.mod_eq_of_lt hlt
        simp only [natReprAux, List.nil_append, decodeDigits, List.foldl_cons,
          List.foldl_nil]
        rw [this, digitVal_digitChar hlt]
        omega
      · have hdiv : (m + 1) / 10 < m + 1 := Nat.div_lt_self (Nat.succ_pos m) (by decide)
        have hrec := ih ((m + 1) / 10) hdiv (Nat.pos_of_ne_zero h10)
        unfold decodeDigits at hrec ⊢
        rw [decode_foldl_append, hrec,
          digitVal_digitChar (Nat.mod_lt _ (by decide))]
        omega

theorem natRepr_injective {m n : Nat} (h : natRepr m = natRepr n) : m = n := by
  unfold natRepr at h
  by_cases hm : m = 0 <;> by_cases hn : n = 0 <;> simp [hm, hn] at h ⊢
  · -- m = 0, n > 0 : decode both sides
    have hdata : ("0" : String).data = natReprAux n [] := congrArg String.data h
    have := decode_natReprAux n (Nat.pos_of_ne_zero hn)
    rw [← hdata] at this
    have h0 : decodeDigits ("0" : String).data = 0 := by decide
    omega
  · have hdata : natReprAux m [] = ("0" : String).data := congrArg String.data h
    have := decode_natReprAux m (Nat.pos_of_ne_zero hm)
    rw [hdata] at this
    have h0 : decodeDigits ("0" : String).data = 0 := by decide
    omega
  · have hdata : natReprAux m [] = natReprAux n [] := congrArg String.data h
    have h1 := decode_natReprAux m (Nat.pos_of_ne_zero hm)
    have h2 := decode_natReprAux n (Nat.pos_of_ne_zero hn)
    rw [hdata] at h1
    omega

/-! ### Tensors, layers and the `fc_model.Network` model -/

/-- A parameter tensor: shape plus flat data.  Only shapes and (exact) equality
of the data matter to the claims, so entries are integers, not floats. -/
structure Tensor where
  shape : List Nat
  data : List Int
  deriving DecidableEq

/-- A fully-connected layer, as `nn.Linear(in_features, out_features)`:
weight of shape `[out_features, in_features]`, bias of shape `[out_features]`. -/
structure Linear where
  in_features : Nat
  out_features : Nat
  weight : Tensor
  bias : Tensor
  deriving DecidableEq

/-- Modelled from the spec: `nn.Linear(inf, outf)` of the external framework.
Fresh parameters are drawn from the entropy stream `ρ` (standing in for the
framework's random initialisation); their exact values never matter. -/
def nnLinear (ρ : Nat → Int) (inf outf : Nat) : Linear :=
  { in_features := inf
    out_features := outf
    weight := ⟨[outf, inf], (List.range (outf * inf)).map ρ⟩
    bias := ⟨[outf], (List.range outf).map (fun j => ρ (outf * inf + j))⟩ }

/-- Modelled from the spec: the `fc_model.Network` module (the file
`fc_model.py` is not among the sources; the architecture is fixed by the
notebook's printed repr: a `ModuleList` of hidden `Linear` layers, an `output`
`Linear`, and a `Dropout(p=0.5)`). -/
structure Network where
  input_size : Nat
  output_size : Nat
  hidden_layers : List Linear
  output : Linear
  drop_p : ℚ
  deriving DecidableEq

/-- Consecutive (in, out) size pairs of the hidden layers: for
`Network(784, 10, [512, 256, 128])` this is `[(784,512),(512,256),(256,128)]`,
exactly the hidden `Linear` layers the notebook's repr prints. -/
def layerSizePairs (input_size : Nat) (hidden : List Nat) : List (Nat × Nat) :=
  (input_size :: hidden).zip hidden

/-- Modelled from the spec: `fc_model.Network(input_size, output_size, hidden)`.
Hidden layers chain `input_size :: hidden` consecutively; the output layer maps
the last hidden size to `output_size`; dropout probability is `0.5`.
(Python indexes `hidden[-1]` and so raises on an empty list; here the
`getLastD` default is never exercised because every theorem that constructs a
network assumes `hidden ≠ []`.) -/
def mkNetwork (ρ : Nat → Nat → Int) (input_size output_size : Nat)
    (hidden : List Nat) : Network :=
  { input_size := input_size
    output_size := output_size
    hidden_layers := (layerSizePairs input_size hidden).enum.map
      (fun p => nnLinear (ρ p.1) p.2.1 p.2.2)
    output := nnLinear (ρ hidden.length) (hidden.getLastD input_size) output_size
    drop_p := 1 / 2 }

/-- State-dict key of hidden layer `i`'s weight, `hidden_layers.<i>.weight`. -/
def hiddenWeightKey (i : Nat) : String :=
  "hidden_layers." ++ natRepr i ++ ".weight"

/-- State-dict key of hidden layer `i`'s bias, `hidden_layers.<i>.bias`. -/
def hiddenBiasKey (i : Nat) : String :=
  "hidden_layers." ++ natRepr i ++ ".bias"

/-- Modelled from the spec: `model.state_dict()` of the framework, whose keys
the notebook prints as `hidden_layers.<i>.weight`, `hidden_layers.<i>.bias`
for each hidden layer index followed by `output.weight`, `output.bias`. -/
def Network.state_dict (net : Network) : List (String × Tensor) :=
  (net.hidden_layers.enum.map (fun p =>
    [(hiddenWeightKey p.1, p.2.weight), (hiddenBiasKey p.1, p.2.bias)])).flatten
  ++ [("output.weight", net.output.weight), ("output.bias", net.output.bias)]

/-- The keys of a network's state dict, in order. -/
def Network.paramKeys (net : Network) : List String :=
  net.state_dict.map Prod.fst

/-- The checkpoint dictionary built in the saving notebook.  Its four keys are
fixed by the dict literal in the source, which hardcodes `"input_size": 784`
and `"output_size": 10` (see `mkCheckpoint`). -/
structure Checkpoint where
  input_size : Nat
  output_size : Nat
  hidden_layers : List Nat
  state_dict : List (String × Tensor)
  deriving DecidableEq

/-- The keys of the checkpoint dictionary (it is a Python dict literal with
exactly these four keys). -/
def checkpointKeys (_ : Checkpoint) : List String :=
  ["input_size", "output_size", "hidden_layers", "state_dict"]

/-- The checkpoint dict built in the source notebook: note that the source
hardcodes the literals `784` and `10` rather than reading them off the model;
`hidden_layers` collects `each.out_features` over `model.hidden_layers` and
`state_dict` is `model.state_dict()`. -/
def mkCheckpoint (model : Network) : Checkpoint :=
  { input_size := 784
    output_size := 10
    hidden_layers := model.hidden_layers.map (fun l => l.out_features)
    state_dict := model.state_dict }

/-- Modelled from the spec: `torch.save` serialises the checkpoint dictionary
to a file; the round-trip with `torch.load` is the framework's contract, so the
file is modelled by its deserialised content. -/
def torch_save (c : Checkpoint) : Checkpoint := c

/-- Modelled from the spec: `torch.load` deserialises a checkpoint file. -/
def torch_load (f : Checkpoint) : Checkpoint := f

/-- One parameter slot of `load_state_dict`: look the key up in the incoming
state dict; a missing key or a shape mismatch leaves the current tensor in
place and records an error message, a matching shape copies the tensor. -/
def checkParam (sd : List (String × Tensor)) (key : String) (cur : Tensor) :
    Tensor × List String :=
  match sd.lookup key with
  | none => (cur, ["Missing key: " ++ key])
  | some t =>
    if t.shape = cur.shape then (t, []) else (cur, ["size mismatch for " ++ key])

/-- Keys of the incoming state dict that name no parameter of the model. -/
def unexpectedKeys (net : Network) (sd : List (String × Tensor)) : List String :=
  (sd.map Prod.fst).filter (fun k => !net.paramKeys.contains k)

/-- `load_state_dict` processing of hidden layer `p.2` at index `p.1`: copy
weight and bias from the incoming dict where the shapes allow it, and return
the error messages this layer contributes. -/
def loadLinearAt (sd : List (String × Tensor)) (p : Nat × Linear) :
    Linear × List String :=
  let w := checkParam sd (hiddenWeightKey p.1) p.2.weight
  let b := checkParam sd (hiddenBiasKey p.1) p.2.bias
  ({ p.2 with weight := w.1, bias := b.1 }, w.2 ++ b.2)

/-- All error messages `load_state_dict` collects: per-parameter messages in
state-dict order, then one message per unexpected incoming key. -/
def loadErrs (net : Network) (sd : List (String × Tensor)) : List String :=
  ((net.hidden_layers.enum.map (loadLinearAt sd)).map Prod.snd).flatten
    ++ (checkParam sd "output.weight" net.output.weight).2
    ++ (checkParam sd "output.bias" net.output.bias).2
    ++ (unexpectedKeys net sd).map (fun k => "Unexpected key: " ++ k)

/-- The in-place state of the module after a strict `load_state_dict` call,
whether or not the call raised: every parameter whose key is found with a
matching shape has been copied from the incoming dict, every mismatched or
missing parameter keeps its previous tensor. -/
def loadedNetwork (net : Network) (sd : List (String × Tensor)) : Network :=
  { net with
    hidden_layers := (net.hidden_layers.enum.map (loadLinearAt sd)).map Prod.fst
    output := { net.output with
      weight := (checkParam sd "output.weight" net.output.weight).1
      bias := (checkParam sd "output.bias" net.output.bias).1 } }

/-- Modelled from the spec: strict `model.load_state_dict(state_dict)` as the
notebook demonstrates it — every model parameter is matched by key against the
incoming dict and every matching-shape parameter is copied into the model in
place as the modules are walked; if all keys match the call succeeds with the
fully updated model (`<All keys matched successfully>`), otherwise a
`RuntimeError` carrying one message per offending parameter ("copying a
param with shape ... from checkpoint" in the notebook's output) is raised at
the end.  The raise does not undo the copies already made, so the error
carries the state the model is left in: the partially updated
`loadedNetwork`. -/
def Network.load_state_dict (net : Network) (sd : List (String × Tensor)) :
    Except (List String × Network) Network :=
  if loadErrs net sd = [] then Except.ok (loadedNetwork net sd)
  else Except.error (loadErrs net sd, loadedNetwork net sd)

/-- `load_checkpoint` from the source notebook: `torch.load` the file, rebuild
`fc_model.Network` from the stored hyperparameters, then
`model.load_state_dict(checkpoint["state_dict"])`.  `ρ` is the entropy the
framework uses to initialise the fresh model (immediately overwritten on
success). -/
def load_checkpoint (ρ : Nat → Nat → Int) (filepath : Checkpoint) :
    Except (List String × Network) Network :=
  let checkpoint := torch_load filepath
  let model := mkNetwork ρ checkpoint.input_size checkpoint.output_size
    checkpoint.hidden_layers
  model.load_state_dict checkpoint.state_dict

/-- The round trip claim C1 speaks about: save the checkpoint dictionary of a
model to a file with `torch.save`, then `load_checkpoint` that file. -/
def roundTrip (ρ : Nat → Nat → Int) (model : Network) :
    Except (List String × Network) Network :=
  load_checkpoint ρ (torch_save (mkCheckpoint model))

/-- An arbitrary concrete entropy stream (all zeros) for concrete instances. -/
def zeroInit : Nat → Nat → Int := fun _ _ => 0

/-! ### Distinctness of state-dict keys -/

theorem string_data_append (a b : String) : (a ++ b).data = a.data ++ b.data := by
  cases a; cases b; rfl

theorem string_eq_of_data_eq {a b : String} (h : a.data = b.data) : a = b :=
  String.ext h

theorem hiddenWeightKey_data (i : Nat) :
    (hiddenWeightKey i).data =
      "hidden_layers.".data ++ (natRepr i).data ++ ".weight".data := by
  simp [hiddenWeightKey, string_data_append]

theorem hiddenBiasKey_data (i : Nat) :
    (hiddenBiasKey i).data =
      "hidden_layers.".data ++ (natRepr i).data ++ ".bias".data := by
  simp [hiddenBiasKey, string_data_append]

theorem hiddenWeightKey_injective {i j : Nat}
    (h : hiddenWeightKey i = hiddenWeightKey j) : i = j := by
  have hd := congrArg String.data h
  rw [hiddenWeightKey_data, hiddenWeightKey_data, List.append_assoc,
    List.append_assoc] at hd
  have h1 := List.append_cancel_left hd
  have h2 := List.append_cancel_right h1
  exact natRepr_injective (string_eq_of_data_eq h2)

theorem hiddenBiasKey_injective {i j : Nat}
    (h : hiddenBiasKey i = hiddenBiasKey j) : i = j := by
  have hd := congrArg String.data h
  rw [hiddenBiasKey_data, hiddenBiasKey_data, List.append_assoc,
    List.append_assoc] at hd
  have h1 := List.append_cancel_left hd
  have h2 := List.append_cancel_right h1
  exact natRepr_injective (string_eq_of_data_eq h2)

theorem hiddenWeightKey_ne_biasKey (i j : Nat) :
    hiddenWeightKey i ≠ hiddenBiasKey j := by
  intro h
  have hd := congrArg String.data h
  rw [hiddenWeightKey_data, hiddenBiasKey_data, List.append_assoc,
    List.append_assoc] at hd
  have h1 := List.append_cancel_left hd
  have h2 := congrArg List.getLast? h1
  rw [List.getLast?_append_of_ne_nil _ (by decide),
    List.getLast?_append_of_ne_nil _ (by decide)] at h2
  revert h2; decide

theorem hiddenWeightKey_head (i : Nat) :
    (hiddenWeightKey i).data.head? = some 'h' := by
  rw [hiddenWeightKey_data]
  rfl

theorem hiddenBiasKey_head (i : Nat) :
    (hiddenBiasKey i).data.head? = some 'h' := by
  rw [hiddenBiasKey_data]
  rfl

theorem hiddenWeightKey_ne_outputWeight (i : Nat) :
    hiddenWeightKey i ≠ "output.weight" := by
  intro h
  have hd : (hiddenWeightKey i).data.head? = ("output.weight" : String).data.head? := by
    rw [h]
  rw [hiddenWeightKey_head] at hd
  revert hd; decide

theorem hiddenWeightKey_ne_outputBias (i : Nat) :
    hiddenWeightKey i ≠ "output.bias" := by
  intro h
  have hd : (hiddenWeightKey i).data.head? = ("output.bias" : String).data.head? := by
    rw [h]
  rw [hiddenWeightKey_head] at hd
  revert hd; decide

theorem hiddenBiasKey_ne_outputWeight (i : Nat) :
    hiddenBiasKey i ≠ "output.weight" := by
  intro h
  have hd : (hiddenBiasKey i).data.head? = ("output.weight" : String).data.head? := by
    rw [h]
  rw [hiddenBiasKey_head] at hd
  revert hd; decide

theorem hiddenBiasKey_ne_outputBias (i : Nat) :
    hiddenBiasKey i ≠ "output.bias" := by
  intro h
  have hd : (hiddenBiasKey i).data.head? = ("output.bias" : String).data.head? := by
    rw [h]
  rw [hiddenBiasKey_head] at hd
  revert hd; decide

/-! ### Association-list lookups in a state dict -/

theorem lookup_of_mem_of_nodup {sd : List (String × Tensor)} {k : String}
    {v : Tensor} (hn : (sd.map Prod.fst).Nodup) (hm : (k, v) ∈ sd) :
    sd.lookup k = some v := by
  induction sd with
  | nil => cases hm
  | cons p rest ih =>
    obtain ⟨k', v'⟩ := p
    rw [List.map_cons, List.nodup_cons] at hn
    rcases List.mem_cons.mp hm with heq | hrest
    · obtain ⟨hk, hv⟩ := Prod.mk.injEq .. ▸ heq
      subst hk; subst hv
      simp [List.lookup]
    · by_cases hk : k = k'
      · subst hk
        exact absurd (List.mem_map_of_mem Prod.fst hrest) hn.1
      · have hb : (k == k') = false := by
          simp [beq_iff_eq]
          exact hk
        simp only [List.lookup, hb]
        exact ih hn.2 hrest

theorem lookup_eq_none_of_not_mem {sd : List (String × Tensor)} {k : String}
    (h : k ∉ sd.map Prod.fst) : sd.lookup k = none := by
  induction sd with
  | nil => rfl
  | cons p rest ih =>
    rw [List.map_cons, List.mem_cons] at h
    push_neg at h
    have hb : (k == p.1) = false := by
      simp [beq_iff_eq]
      exact h.1
    obtain ⟨k', v'⟩ := p
    simp only [List.lookup, hb]
    exact ih h.2

/-! ### The key list of a network's state dict -/

/-- The state-dict keys of a network with `n` hidden layers, in order. -/
def keyList (n : Nat) : List String :=
  ((List.range n).map (fun i => [hiddenWeightKey i, hiddenBiasKey i])).flatten
    ++ ["output.weight", "output.bias"]

theorem paramKeys_eq_keyList (net : Network) :
    net.paramKeys = keyList net.hidden_layers.length := by
  unfold Network.paramKeys Network.state_dict keyList
  rw [List.map_append, List.map_flatten, List.map_map]
  have h1 : (List.map Prod.fst ∘ fun p : Nat × Linear =>
      [(hiddenWeightKey p.1, p.2.weight), (hiddenBiasKey p.1, p.2.bias)]) =
      (fun i => [hiddenWeightKey i, hiddenBiasKey i]) ∘ Prod.fst := by
    funext p; rfl
  rw [h1, ← List.map_map, List.enum_map_fst]
  rfl

theorem mem_keyList_weight {i n : Nat} : hiddenWeightKey i ∈ keyList n ↔ i < n := by
  unfold keyList
  constructor
  · intro h
    rcases List.mem_append.mp h with h | h
    · obtain ⟨l, hl, hmem⟩ := List.mem_flatten.mp h
      obtain ⟨j, hj, rfl⟩ := List.mem_map.mp hl
      rcases List.mem_cons.mp hmem with he | he
      · rw [hiddenWeightKey_injective he]
        exact List.mem_range.mp hj
      · rw [List.mem_singleton] at he
        exact absurd he (hiddenWeightKey_ne_biasKey i j)
    · rcases List.mem_cons.mp h with he | he
      · exact absurd he (hiddenWeightKey_ne_outputWeight i)
      · rw [List.mem_singleton] at he
        exact absurd he (hiddenWeightKey_ne_outputBias i)
  · intro h
    refine List.mem_append.mpr (Or.inl (List.mem_flatten.mpr
      ⟨[hiddenWeightKey i, hiddenBiasKey i], ?_, ?_⟩))
    · exact List.mem_map.mpr ⟨i, List.mem_range.mpr h, rfl⟩
    · exact List.mem_cons_self _ _

theorem mem_keyList_bias {i n : Nat} : hiddenBiasKey i ∈ keyList n ↔ i < n := by
  unfold keyList
  constructor
  · intro h
    rcases List.mem_append.mp h with h | h
    · obtain ⟨l, hl, hmem⟩ := List.mem_flatten.mp h
      obtain ⟨j, hj, rfl⟩ := List.mem_map.mp hl
      rcases List.mem_cons.mp hmem with he | he
      · exact absurd he.symm (hiddenWeightKey_ne_biasKey j i)
      · rw [List.mem_singleton] at he
        rw [hiddenBiasKey_injective he]
        exact List.mem_range.mp hj
    · rcases List.mem_cons.mp h with he | he
      · exact absurd he (hiddenBiasKey_ne_outputWeight i)
      · rw [List.mem_singleton] at he
        exact absurd he (hiddenBiasKey_ne_outputBias i)
  · intro h
    refine List.mem_append.mpr (Or.inl (List.mem_flatten.mpr
      ⟨[hiddenWeightKey i, hiddenBiasKey i], ?_, ?_⟩))
    · exact List.mem_map.mpr ⟨i, List.mem_range.mpr h, rfl⟩
    · exact List.mem_cons.mpr (Or.inr (List.mem_singleton.mpr rfl))

theorem mem_keyList_outputWeight {n : Nat} : ("output.weight" : String) ∈ keyList n := by
  unfold keyList
  exact List.mem_append.mpr (Or.inr (List.mem_cons_self _ _))

theorem mem_keyList_outputBias {n : Nat} : ("output.bias" : String) ∈ keyList n := by
  unfold keyList
  exact List.mem_append.mpr (Or.inr (List.mem_cons.mpr
    (Or.inr (List.mem_singleton.mpr rfl))))

theorem keyList_nodup (n : Nat) : (keyList n).Nodup := by
  unfold keyList
  rw [List.nodup_append]
  refine ⟨?_, ?_, ?_⟩
  · rw [← List.flatMap_def, List.nodup_flatMap]
    constructor
    · intro i _
      simp only [List.nodup_cons, List.mem_singleton, List.not_mem_nil,
        not_false_iff, List.nodup_nil, and_true]
      exact hiddenWeightKey_ne_biasKey i i
    · refine (List.pairwise_lt_range n).imp ?_
      intro i j hlt
      have hij : i ≠ j := Nat.ne_of_lt hlt
      intro s hs hs'
      rcases List.mem_cons.mp hs with rfl | hs
      · rcases List.mem_cons.mp hs' with he | he
        · exact hij (hiddenWeightKey_injective he.symm ▸ rfl)
        · rw [List.mem_singleton] at he
          exact hiddenWeightKey_ne_biasKey i j he
      · rw [List.mem_singleton] at hs
        subst hs
        rcases List.mem_cons.mp hs' with he | he
        · exact hiddenWeightKey_ne_biasKey j i he.symm
        · rw [List.mem_singleton] at he
          exact hij (hiddenBiasKey_injective he ▸ rfl)
  · decide
  · intro s hs
    obtain ⟨l, hl, hmem⟩ := List.mem_flatten.mp hs
    obtain ⟨j, _, rfl⟩ := List.mem_map.mp hl
    intro hout
    rcases List.mem_cons.mp hmem with rfl | hmem
    · rcases List.mem_cons.mp hout with he | he
      · exact hiddenWeightKey_ne_outputWeight j he
      · rw [List.mem_singleton] at he
        exact hiddenWeightKey_ne_outputBias j he
    · rw [List.mem_singleton] at hmem
      subst hmem
      rcases List.mem_cons.mp hout with he | he
      · exact hiddenBiasKey_ne_outputWeight j he
      · rw [List.mem_singleton] at he
        exact hiddenBiasKey_ne_outputBias j he

/-! ### Structure of `mkNetwork` and its state dict -/

theorem length_layerSizePairs (a : Nat) (h : List Nat) :
    (layerSizePairs a h).length = h.length := by
  simp [layerSizePairs]

theorem mkNetwork_hidden_length (ρ : Nat → Nat → Int) (a b : Nat) (h : List Nat) :
    (mkNetwork ρ a b h).hidden_layers.length = h.length := by
  simp [mkNetwork, length_layerSizePairs]

theorem mkNetwork_hidden_get (ρ : Nat → Nat → Int) (a b : Nat) (h : List Nat)
    (i : Nat) (hi : i < (mkNetwork ρ a b h).hidden_layers.length) :
    (mkNetwork ρ a b h).hidden_layers.get ⟨i, hi⟩ =
      nnLinear (ρ i) ((a :: h).getD i 0) (h.getD i 0) := by
  have hih : i < h.length := by
    rw [mkNetwork_hidden_length] at hi
    exact hi
  have hpairs : i < (layerSizePairs a h).length := by
    rw [length_layerSizePairs]; exact hih
  have hienum : i < (layerSizePairs a h).enum.length := by
    rw [List.enum_length]; exact hpairs
  have hicons : i < (a :: h).length := by
    simp only [List.length_cons]; omega
  simp only [mkNetwork, List.get_eq_getElem, List.getElem_map, List.getElem_enum]
  rw [show (layerSizePairs a h)[i] = ((a :: h)[i], h[i]) from List.getElem_zip]
  rw [List.getD_eq_getElem _ _ hicons, List.getD_eq_getElem _ _ hih]

theorem mkNetwork_out_features (ρ : Nat → Nat → Int) (a b : Nat) (h : List Nat) :
    (mkNetwork ρ a b h).hidden_layers.map (fun l => l.out_features) = h := by
  simp only [mkNetwork, List.map_map]
  have : ((fun l : Linear => l.out_features) ∘ fun p : Nat × (Nat × Nat) =>
      nnLinear (ρ p.1) p.2.1 p.2.2) = Prod.snd ∘ Prod.snd := by
    funext p; rfl
  rw [this, ← List.map_map, List.enum_map_snd, layerSizePairs,
    List.map_snd_zip]
  simp

theorem mkNetwork_output (ρ : Nat → Nat → Int) (a b : Nat) (h : List Nat) :
    (mkNetwork ρ a b h).output = nnLinear (ρ h.length) (h.getLastD a) b := rfl

theorem nnLinear_weight_shape (ρ : Nat → Int) (inf outf : Nat) :
    (nnLinear ρ inf outf).weight.shape = [outf, inf] := rfl

theorem nnLinear_bias_shape (ρ : Nat → Int) (inf outf : Nat) :
    (nnLinear ρ inf outf).bias.shape = [outf] := rfl

theorem state_dict_map_fst (net : Network) :
    net.state_dict.map Prod.fst = keyList net.hidden_layers.length :=
  paramKeys_eq_keyList net

theorem state_dict_nodup_keys (net : Network) :
    (net.state_dict.map Prod.fst).Nodup := by
  rw [state_dict_map_fst]
  exact keyList_nodup _

theorem state_dict_mem_weight (net : Network) (i : Nat)
    (hi : i < net.hidden_layers.length) :
    (hiddenWeightKey i, (net.hidden_layers.get ⟨i, hi⟩).weight) ∈
      net.state_dict := by
  unfold Network.state_dict
  refine List.mem_append.mpr (Or.inl (List.mem_flatten.mpr
    ⟨[(hiddenWeightKey i, (net.hidden_layers.get ⟨i, hi⟩).weight),
      (hiddenBiasKey i, (net.hidden_layers.get ⟨i, hi⟩).bias)], ?_, ?_⟩))
  · refine List.mem_map.mpr ⟨(i, net.hidden_layers.get ⟨i, hi⟩), ?_, rfl⟩
    have he : i < net.hidden_layers.enum.length := by
      rw [List.enum_length]; exact hi
    have := List.getElem_mem he
    rw [List.getElem_enum] at this
    simpa [List.get_eq_getElem] using this
  · exact List.mem_cons_self _ _

theorem state_dict_mem_bias (net : Network) (i : Nat)
    (hi : i < net.hidden_layers.length) :
    (hiddenBiasKey i, (net.hidden_layers.get ⟨i, hi⟩).bias) ∈
      net.state_dict := by
  unfold Network.state_dict
  refine List.mem_append.mpr (Or.inl (List.mem_flatten.mpr
    ⟨[(hiddenWeightKey i, (net.hidden_layers.get ⟨i, hi⟩).weight),
      (hiddenBiasKey i, (net.hidden_layers.get ⟨i, hi⟩).bias)], ?_, ?_⟩))
  · refine List.mem_map.mpr ⟨(i, net.hidden_layers.get ⟨i, hi⟩), ?_, rfl⟩
    have he : i < net.hidden_layers.enum.length := by
      rw [List.enum_length]; exact hi
    have := List.getElem_mem he
    rw [List.getElem_enum] at this
    simpa [List.get_eq_getElem] using this
  · exact List.mem_cons.mpr (Or.inr (List.mem_singleton.mpr rfl))

theorem state_dict_lookup_weight (net : Network) (i : Nat)
    (hi : i < net.hidden_layers.length) :
    net.state_dict.lookup (hiddenWeightKey i) =
      some ((net.hidden_layers.get ⟨i, hi⟩).weight) :=
  lookup_of_mem_of_nodup (state_dict_nodup_keys net) (state_dict_mem_weight net i hi)

theorem state_dict_lookup_bias (net : Network) (i : Nat)
    (hi : i < net.hidden_layers.length) :
    net.state_dict.lookup (hiddenBiasKey i) =
      some ((net.hidden_layers.get ⟨i, hi⟩).bias) :=
  lookup_of_mem_of_nodup (state_dict_nodup_keys net) (state_dict_mem_bias net i hi)

theorem state_dict_lookup_weight_none (net : Network) (i : Nat)
    (hi : net.hidden_layers.length ≤ i) :
    net.state_dict.lookup (hiddenWeightKey i) = none := by
  refine lookup_eq_none_of_not_mem ?_
  rw [state_dict_map_fst]
  rw [mem_keyList_weight]
  omega

theorem state_dict_lookup_outputWeight (net : Network) :
    net.state_dict.lookup "output.weight" = some net.output.weight := by
  refine lookup_of_mem_of_nodup (state_dict_nodup_keys net) ?_
  unfold Network.state_dict
  exact List.mem_append.mpr (Or.inr (List.mem_cons_self _ _))

theorem state_dict_lookup_outputBias (net : Network) :
    net.state_dict.lookup "output.bias" = some net.output.bias := by
  refine lookup_of_mem_of_nodup (state_dict_nodup_keys net) ?_
  unfold Network.state_dict
  exact List.mem_append.mpr (Or.inr (List.mem_cons.mpr
    (Or.inr (List.mem_singleton.mpr rfl))))

/-! ### `load_state_dict` on a state dict of the same architecture -/

theorem checkParam_eq_of_some {sd : List (String × Tensor)} {k : String}
    {cur t : Tensor} (hl : sd.lookup k = some t) (hs : t.shape = cur.shape) :
    checkParam sd k cur = (t, []) := by
  unfold checkParam
  rw [hl]
  simp [hs]

theorem checkParam_snd_nil {sd : List (String × Tensor)} {k : String}
    {cur : Tensor} :
    (checkParam sd k cur).2 = [] ↔
      ∃ t, sd.lookup k = some t ∧ t.shape = cur.shape := by
  unfold checkParam
  cases hl : sd.lookup k with
  | none => simp
  | some t =>
    by_cases hs : t.shape = cur.shape <;> simp [hs]

theorem checkParam_snd_of_mismatch {sd : List (String × Tensor)} {k : String}
    {cur t : Tensor} (hl : sd.lookup k = some t) (hs : t.shape ≠ cur.shape) :
    (checkParam sd k cur).2 = ["size mismatch for " ++ k] := by
  unfold checkParam
  rw [hl]
  simp [hs]

theorem loadLinearAt_same (ρ1 ρ2 : Nat → Nat → Int) (a b : Nat) (h : List Nat)
    (i : Nat) (hi2 : i < (mkNetwork ρ2 a b h).hidden_layers.length)
    (hi1 : i < (mkNetwork ρ1 a b h).hidden_layers.length) :
    loadLinearAt (mkNetwork ρ1 a b h).state_dict
        (i, (mkNetwork ρ2 a b h).hidden_layers.get ⟨i, hi2⟩) =
      ((mkNetwork ρ1 a b h).hidden_layers.get ⟨i, hi1⟩, []) := by
  have hw := state_dict_lookup_weight (mkNetwork ρ1 a b h) i hi1
  have hb := state_dict_lookup_bias (mkNetwork ρ1 a b h) i hi1
  rw [mkNetwork_hidden_get ρ1 a b h i hi1] at hw hb ⊢
  rw [mkNetwork_hidden_get ρ2 a b h i hi2]
  unfold loadLinearAt
  dsimp only
  have hcw : checkParam (mkNetwork ρ1 a b h).state_dict (hiddenWeightKey i)
      (nnLinear (ρ2 i) ((a :: h).getD i 0) (h.getD i 0)).weight =
      ((nnLinear (ρ1 i) ((a :: h).getD i 0) (h.getD i 0)).weight, []) :=
    checkParam_eq_of_some hw rfl
  have hcb : checkParam (mkNetwork ρ1 a b h).state_dict (hiddenBiasKey i)
      (nnLinear (ρ2 i) ((a :: h).getD i 0) (h.getD i 0)).bias =
      ((nnLinear (ρ1 i) ((a :: h).getD i 0) (h.getD i 0)).bias, []) :=
    checkParam_eq_of_some hb rfl
  rw [hcw, hcb]
  rfl

theorem unexpectedKeys_same_length (net1 net2 : Network)
    (hlen : net1.hidden_layers.length = net2.hidden_layers.length) :
    unexpectedKeys net2 net1.state_dict = [] := by
  unfold unexpectedKeys
  rw [List.filter_eq_nil_iff]
  intro k hk
  rw [state_dict_map_fst, hlen] at hk
  rw [paramKeys_eq_keyList]
  simp only [Bool.not_eq_true', Bool.not_eq_false]
  exact List.elem_iff.mpr hk

theorem loadErrs_same_arch (ρ1 ρ2 : Nat → Nat → Int) (a b : Nat) (h : List Nat) :
    loadErrs (mkNetwork ρ2 a b h) (mkNetwork ρ1 a b h).state_dict = [] := by
  have hmain : (mkNetwork ρ2 a b h).hidden_layers.enum.map
      (loadLinearAt (mkNetwork ρ1 a b h).state_dict) =
      (mkNetwork ρ1 a b h).hidden_layers.enum.map
        (fun p => (p.2, ([] : List String))) := by
    apply List.ext_getElem
    · simp [List.enum_length, mkNetwork_hidden_length]
    · intro j hj1 hj2
      have hj2' : j < (mkNetwork ρ2 a b h).hidden_layers.length := by
        simpa [List.enum_length] using hj1
      have hj1' : j < (mkNetwork ρ1 a b h).hidden_layers.length := by
        simpa [List.enum_length] using hj2
      simp only [List.getElem_map, List.getElem_enum]
      have := loadLinearAt_same ρ1 ρ2 a b h j hj2' hj1'
      simpa [List.get_eq_getElem] using this
  have how : checkParam (mkNetwork ρ1 a b h).state_dict "output.weight"
      (mkNetwork ρ2 a b h).output.weight =
      ((mkNetwork ρ1 a b h).output.weight, []) :=
    checkParam_eq_of_some (state_dict_lookup_outputWeight (mkNetwork ρ1 a b h)) rfl
  have hob : checkParam (mkNetwork ρ1 a b h).state_dict "output.bias"
      (mkNetwork ρ2 a b h).output.bias =
      ((mkNetwork ρ1 a b h).output.bias, []) :=
    checkParam_eq_of_some (state_dict_lookup_outputBias (mkNetwork ρ1 a b h)) rfl
  unfold loadErrs
  rw [hmain, how, hob,
    unexpectedKeys_same_length _ _
      (by rw [mkNetwork_hidden_length, mkNetwork_hidden_length])]
  simp [List.flatten_eq_nil_iff]

theorem loadedNetwork_same_arch (ρ1 ρ2 : Nat → Nat → Int) (a b : Nat)
    (h : List Nat) :
    loadedNetwork (mkNetwork ρ2 a b h) (mkNetwork ρ1 a b h).state_dict =
      mkNetwork ρ1 a b h := by
  have hmain : (mkNetwork ρ2 a b h).hidden_layers.enum.map
      (loadLinearAt (mkNetwork ρ1 a b h).state_dict) =
      (mkNetwork ρ1 a b h).hidden_layers.enum.map
        (fun p => (p.2, ([] : List String))) := by
    apply List.ext_getElem
    · simp [List.enum_length, mkNetwork_hidden_length]
    · intro j hj1 hj2
      have hj2' : j < (mkNetwork ρ2 a b h).hidden_layers.length := by
        simpa [List.enum_length] using hj1
      have hj1' : j < (mkNetwork ρ1 a b h).hidden_layers.length := by
        simpa [List.enum_length] using hj2
      simp only [List.getElem_map, List.getElem_enum]
      have := loadLinearAt_same ρ1 ρ2 a b h j hj2' hj1'
      simpa [List.get_eq_getElem] using this
  have how : checkParam (mkNetwork ρ1 a b h).state_dict "output.weight"
      (mkNetwork ρ2 a b h).output.weight =
      ((mkNetwork ρ1 a b h).output.weight, []) :=
    checkParam_eq_of_some (state_dict_lookup_outputWeight (mkNetwork ρ1 a b h)) rfl
  have hob : checkParam (mkNetwork ρ1 a b h).state_dict "output.bias"
      (mkNetwork ρ2 a b h).output.bias =
      ((mkNetwork ρ1 a b h).output.bias, []) :=
    checkParam_eq_of_some (state_dict_lookup_outputBias (mkNetwork ρ1 a b h)) rfl
  unfold loadedNetwork
  rw [hmain, how, hob]
  have hh : ((mkNetwork ρ1 a b h).hidden_layers.enum.map
      (fun p => (p.2, ([] : List String)))).map Prod.fst =
      (mkNetwork ρ1 a b h).hidden_layers := by
    rw [List.map_map]
    have : (Prod.fst ∘ fun p : Nat × Linear => (p.2, ([] : List String))) =
        Prod.snd := by
      funext p; rfl
    rw [this, List.enum_map_snd]
  rw [hh]
  show Network.mk _ _ _ _ _ = _
  rw [mkNetwork_output ρ1 a b h, mkNetwork_output ρ2 a b h]
  rfl

theorem load_state_dict_same_arch (ρ1 ρ2 : Nat → Nat → Int) (a b : Nat)
    (h : List Nat) :
    (mkNetwork ρ2 a b h).load_state_dict (mkNetwork ρ1 a b h).state_dict =
      Except.ok (mkNetwork ρ1 a b h) := by
  unfold Network.load_state_dict
  rw [if_pos (loadErrs_same_arch ρ1 ρ2 a b h), loadedNetwork_same_arch]

/-! ### Claim C1 — checkpoint round trip -/

/-- C1 (counterexample): the claim "for every model built as
`fc_model.Network(input_size, output_size, hidden_sizes)`, saving the
checkpoint dictionary and calling `load_checkpoint` returns a model with the
same architecture and parameters" is false as stated: the notebook's
checkpoint dict hardcodes `"input_size": 784` and `"output_size": 10`, so for
the concrete model `Network(3, 2, [4])` the reload fails (`load_checkpoint`
rebuilds a 784→10 network and `load_state_dict` raises a size mismatch). -/
theorem roundTrip_fails_for_non_784_model :
    (roundTrip zeroInit (mkNetwork zeroInit 3 2 [4])).isOk = false ∧
      (mkNetwork zeroInit 3 2 [4]).input_size = 3 ∧
      (mkNetwork zeroInit 3 2 [4]).output_size = 2 := by
  decide

/-- C1 (amended): for every model built as `fc_model.Network(784, 10,
hidden_sizes)` with nonempty `hidden_sizes` — the only input sizes the
notebook's checkpoint cell supports, since it hardcodes 784 and 10 — saving
the checkpoint dictionary with `torch.save` and calling `load_checkpoint` on
the file returns a model with the same architecture and exactly the saved
parameter tensors (here: the reload is the saved model itself).  The
`hidden ≠ []` hypothesis mirrors Python, where `Network` indexes
`hidden_layers[-1]` and raises on an empty list. -/
theorem roundTrip_ok_for_784_10 (ρ ρ2 : Nat → Nat → Int) (hidden : List Nat)
    (_hne : hidden ≠ []) :
    roundTrip ρ2 (mkNetwork ρ 784 10 hidden) =
      Except.ok (mkNetwork ρ 784 10 hidden) := by
  have hmap := mkNetwork_out_features ρ 784 10 hidden
  unfold roundTrip load_checkpoint torch_save torch_load mkCheckpoint
  dsimp only
  rw [hmap]
  exact load_state_dict_same_arch ρ ρ2 784 10 hidden

theorem roundTrip_ok_for_784_10_witness :
    ([4] : List Nat) ≠ [] ∧
      roundTrip zeroInit (mkNetwork zeroInit 784 10 [4]) =
        Except.ok (mkNetwork zeroInit 784 10 [4]) :=
  ⟨by decide, roundTrip_ok_for_784_10 zeroInit zeroInit [4] (by decide)⟩

/-! ### Claim C2 — when `load_state_dict` succeeds -/

/-- The shape of hidden layer `i`'s weight in `Network(a, _, h)`:
`[h[i], (a :: h)[i]]`. -/
def hiddenWeightShape (a : Nat) (h : List Nat) (i : Nat) : List Nat :=
  [h.getD i 0, (a :: h).getD i 0]

theorem mkNetwork_weight_shape (ρ : Nat → Nat → Int) (a b : Nat) (h : List Nat)
    (i : Nat) (hi : i < (mkNetwork ρ a b h).hidden_layers.length) :
    ((mkNetwork ρ a b h).hidden_layers.get ⟨i, hi⟩).weight.shape =
      hiddenWeightShape a h i := by
  rw [mkNetwork_hidden_get]
  rfl

theorem mkNetwork_bias_shape (ρ : Nat → Nat → Int) (a b : Nat) (h : List Nat)
    (i : Nat) (hi : i < (mkNetwork ρ a b h).hidden_layers.length) :
    ((mkNetwork ρ a b h).hidden_layers.get ⟨i, hi⟩).bias.shape =
      [h.getD i 0] := by
  rw [mkNetwork_hidden_get]
  rfl

theorem load_state_dict_isOk_iff (net : Network) (sd : List (String × Tensor)) :
    (net.load_state_dict sd).isOk = true ↔ loadErrs net sd = [] := by
  unfold Network.load_state_dict
  by_cases hnil : loadErrs net sd = []
  · rw [if_pos hnil]
    exact iff_of_true rfl hnil
  · rw [if_neg hnil]
    exact iff_of_false (fun hcon => Bool.noConfusion hcon) hnil

theorem load_state_dict_error (net : Network) (sd : List (String × Tensor))
    (hne : loadErrs net sd ≠ []) :
    net.load_state_dict sd =
      Except.error (loadErrs net sd, loadedNetwork net sd) := by
  unfold Network.load_state_dict
  rw [if_neg hne]

theorem loadErrs_nil_parts {net2 : Network} {sd : List (String × Tensor)}
    (hnil : loadErrs net2 sd = []) :
    (((net2.hidden_layers.enum.map (loadLinearAt sd)).map Prod.snd).flatten = [])
    ∧ (checkParam sd "output.weight" net2.output.weight).2 = []
    ∧ (checkParam sd "output.bias" net2.output.bias).2 = []
    ∧ unexpectedKeys net2 sd = [] := by
  unfold loadErrs at hnil
  simp only [List.append_eq_nil] at hnil
  obtain ⟨⟨⟨hA, hB⟩, hC⟩, hD⟩ := hnil
  exact ⟨hA, hB, hC, List.map_eq_nil_iff.mp hD⟩

theorem loadErrs_nil_weight {net2 : Network} {sd : List (String × Tensor)}
    (hnil : loadErrs net2 sd = []) (i : Nat)
    (hi : i < net2.hidden_layers.length) :
    ∃ t, sd.lookup (hiddenWeightKey i) = some t ∧
      t.shape = (net2.hidden_layers.get ⟨i, hi⟩).weight.shape := by
  have hA := (loadErrs_nil_parts hnil).1
  rw [List.flatten_eq_nil_iff] at hA
  have hilen : i <
      ((net2.hidden_layers.enum.map (loadLinearAt sd)).map Prod.snd).length := by
    simpa [List.enum_length] using hi
  have hmem := List.getElem_mem hilen
  simp only [List.getElem_map, List.getElem_enum] at hmem
  have hz := hA _ hmem
  unfold loadLinearAt at hz
  dsimp only at hz
  rw [List.append_eq_nil] at hz
  have := checkParam_snd_nil.mp hz.1
  simpa [List.get_eq_getElem] using this

theorem loadErrs_nil_outputWeight {net2 : Network} {sd : List (String × Tensor)}
    (hnil : loadErrs net2 sd = []) :
    ∃ t, sd.lookup "output.weight" = some t ∧
      t.shape = net2.output.weight.shape :=
  checkParam_snd_nil.mp (loadErrs_nil_parts hnil).2.1

theorem loadErrs_nil_keys_sub {net2 : Network} {sd : List (String × Tensor)}
    (hnil : loadErrs net2 sd = []) {k : String} (hk : k ∈ sd.map Prod.fst) :
    k ∈ net2.paramKeys := by
  have hD := (loadErrs_nil_parts hnil).2.2.2
  unfold unexpectedKeys at hD
  rw [List.filter_eq_nil_iff] at hD
  have := hD k hk
  simp only [Bool.not_eq_true', Bool.not_eq_false] at this
  exact List.elem_iff.mp this

/-- A second concrete entropy stream (all ones), so that saved and freshly
initialised parameter tensors differ. -/
def oneInit : Nat → Nat → Int := fun _ _ => 1

/-- C2 (counterexample): the original claim asserts that on an architecture
mismatch "the model is not partially updated into a usable mixed state", but
the strict load copies every matching-shape parameter in place before
raising — the notebook's own error output reads "copying a param with shape
... from checkpoint" and omits `output.bias`, whose shapes matched and which
was therefore copied.  Concretely, loading the checkpoint of
`Network(3, 2, [4])` (parameters all 1) into a fresh `Network(5, 2, [4])`
(parameters all 0) raises, because the hidden weight shapes `[4, 3]` and
`[4, 5]` differ; yet the model the failed call leaves behind has
`output.bias` overwritten with the checkpoint's tensor while the mismatched
hidden weight keeps its fresh value — a partially updated mixed state. -/
theorem load_state_dict_partial_update_counterexample :
    ((mkNetwork zeroInit 5 2 [4]).load_state_dict
        (mkNetwork oneInit 3 2 [4]).state_dict).isOk = false
    ∧ (match (mkNetwork zeroInit 5 2 [4]).load_state_dict
          (mkNetwork oneInit 3 2 [4]).state_dict with
        | Except.ok m => m.output.bias
        | Except.error e => e.2.output.bias) =
        (mkNetwork oneInit 3 2 [4]).output.bias
    ∧ (mkNetwork oneInit 3 2 [4]).output.bias ≠
        (mkNetwork zeroInit 5 2 [4]).output.bias
    ∧ (match (mkNetwork zeroInit 5 2 [4]).load_state_dict
          (mkNetwork oneInit 3 2 [4]).state_dict with
        | Except.ok m => m.hidden_layers.map (fun l => l.weight)
        | Except.error e => e.2.hidden_layers.map (fun l => l.weight)) =
        (mkNetwork zeroInit 5 2 [4]).hidden_layers.map (fun l => l.weight) := by
  decide

/-- C2 (amended): strict `load_state_dict` succeeds (all keys matched)
exactly when the current model's architecture equals the architecture the
state dict was saved from, and on a mismatch it raises a `RuntimeError`
reporting a size mismatch for each differing parameter — hidden weights,
hidden biases, output weight and output bias; but, contrary to the original
claim's last conjunct, a failing call does leave the model partially
updated: the raised error carries the in-place state `loadedNetwork`, in
which every matching-shape parameter (for instance `output.bias` whenever
the two output sizes agree) has already been copied from the checkpoint. -/
theorem load_state_dict_ok_iff_same_arch
    (ρ1 ρ2 : Nat → Nat → Int) (a1 b1 a2 b2 : Nat) (h1 h2 : List Nat)
    (hne1 : h1 ≠ []) (hne2 : h2 ≠ []) :
    (((mkNetwork ρ2 a2 b2 h2).load_state_dict
        (mkNetwork ρ1 a1 b1 h1).state_dict).isOk = true ↔
      (a1 = a2 ∧ b1 = b2 ∧ h1 = h2))
    ∧ (∀ i, i < h1.length → i < h2.length →
        hiddenWeightShape a1 h1 i ≠ hiddenWeightShape a2 h2 i →
        ∃ e, (mkNetwork ρ2 a2 b2 h2).load_state_dict
              (mkNetwork ρ1 a1 b1 h1).state_dict = Except.error e
          ∧ ("size mismatch for " ++ hiddenWeightKey i) ∈ e.1)
    ∧ (∀ i, i < h1.length → i < h2.length →
        h1.getD i 0 ≠ h2.getD i 0 →
        ∃ e, (mkNetwork ρ2 a2 b2 h2).load_state_dict
              (mkNetwork ρ1 a1 b1 h1).state_dict = Except.error e
          ∧ ("size mismatch for " ++ hiddenBiasKey i) ∈ e.1)
    ∧ (([b1, h1.getLastD a1] : List Nat) ≠ [b2, h2.getLastD a2] →
        ∃ e, (mkNetwork ρ2 a2 b2 h2).load_state_dict
              (mkNetwork ρ1 a1 b1 h1).state_dict = Except.error e
          ∧ ("size mismatch for " ++ "output.weight") ∈ e.1)
    ∧ (b1 ≠ b2 →
        ∃ e, (mkNetwork ρ2 a2 b2 h2).load_state_dict
              (mkNetwork ρ1 a1 b1 h1).state_dict = Except.error e
          ∧ ("size mismatch for " ++ "output.bias") ∈ e.1)
    ∧ (∀ e, (mkNetwork ρ2 a2 b2 h2).load_state_dict
          (mkNetwork ρ1 a1 b1 h1).state_dict = Except.error e →
        e.2 = loadedNetwork (mkNetwork ρ2 a2 b2 h2)
          (mkNetwork ρ1 a1 b1 h1).state_dict)
    ∧ (b1 = b2 →
        (loadedNetwork (mkNetwork ρ2 a2 b2 h2)
            (mkNetwork ρ1 a1 b1 h1).state_dict).output.bias =
          (mkNetwork ρ1 a1 b1 h1).output.bias) := by
  refine ⟨?_, ?_, ?_, ?_, ?_, ?_, ?_⟩
  · rw [load_state_dict_isOk_iff]
    constructor
    · intro hnil
      have hshape : ∀ i, i < h2.length → i < h1.length ∧
          hiddenWeightShape a1 h1 i = hiddenWeightShape a2 h2 i := by
        intro i hi2
        have hi2' : i < (mkNetwork ρ2 a2 b2 h2).hidden_layers.length := by
          rw [mkNetwork_hidden_length]; exact hi2
        obtain ⟨t, hlk, hsh⟩ := loadErrs_nil_weight hnil i hi2'
        by_cases hi1 : i < h1.length
        · have hi1' : i < (mkNetwork ρ1 a1 b1 h1).hidden_layers.length := by
            rw [mkNetwork_hidden_length]; exact hi1
          rw [state_dict_lookup_weight _ i hi1'] at hlk
          have ht := (Option.some.inj hlk).symm
          subst ht
          refine ⟨hi1, ?_⟩
          rw [← mkNetwork_weight_shape ρ1 a1 b1 h1 i hi1',
            ← mkNetwork_weight_shape ρ2 a2 b2 h2 i hi2']
          exact hsh
        · exfalso
          rw [state_dict_lookup_weight_none _ i
            (by rw [mkNetwork_hidden_length]; omega)] at hlk
          exact Option.noConfusion hlk
      have hlen12 : h2.length ≤ h1.length := by
        have hpos2 : 0 < h2.length := List.length_pos.mpr hne2
        have := (hshape (h2.length - 1) (by omega)).1
        omega
      have hlen21 : h1.length ≤ h2.length := by
        have hpos1 : 0 < h1.length := List.length_pos.mpr hne1
        have hkmem : hiddenWeightKey (h1.length - 1) ∈
            (mkNetwork ρ1 a1 b1 h1).state_dict.map Prod.fst := by
          rw [state_dict_map_fst, mkNetwork_hidden_length]
          exact mem_keyList_weight.mpr (by omega)
        have hsub := loadErrs_nil_keys_sub hnil hkmem
        rw [paramKeys_eq_keyList, mkNetwork_hidden_length] at hsub
        have := mem_keyList_weight.mp hsub
        omega
      have hlen : h1.length = h2.length := le_antisymm hlen21 hlen12
      have hh : h1 = h2 := by
        apply List.ext_getElem hlen
        intro i hi1 hi2
        have hs := (hshape i hi2).2
        unfold hiddenWeightShape at hs
        rw [List.getD_eq_getElem _ _ hi1, List.getD_eq_getElem _ _ hi2] at hs
        simp only [List.cons.injEq] at hs
        exact hs.1
      have ha : a1 = a2 := by
        have hpos2 : 0 < h2.length := List.length_pos.mpr hne2
        have hs := (hshape 0 hpos2).2
        unfold hiddenWeightShape at hs
        simp only [List.cons.injEq] at hs
        have h0 := hs.2.1
        simpa using h0
      have hb : b1 = b2 := by
        obtain ⟨t, hlk, hsh⟩ := loadErrs_nil_outputWeight hnil
        rw [state_dict_lookup_outputWeight] at hlk
        have ht := (Option.some.inj hlk).symm
        subst ht
        have hsh' : ([b1, h1.getLastD a1] : List Nat) = [b2, h2.getLastD a2] :=
          hsh
        simp only [List.cons.injEq] at hsh'
        exact hsh'.1
      exact ⟨ha, hb, hh⟩
    · rintro ⟨rfl, rfl, rfl⟩
      exact loadErrs_same_arch ρ1 ρ2 a1 b1 h1
  · intro i hi1 hi2 hdiff
    have hi1' : i < (mkNetwork ρ1 a1 b1 h1).hidden_layers.length := by
      rw [mkNetwork_hidden_length]; exact hi1
    have hi2' : i < (mkNetwork ρ2 a2 b2 h2).hidden_layers.length := by
      rw [mkNetwork_hidden_length]; exact hi2
    have hlk := state_dict_lookup_weight (mkNetwork ρ1 a1 b1 h1) i hi1'
    have hshne : ((mkNetwork ρ1 a1 b1 h1).hidden_layers.get ⟨i, hi1'⟩).weight.shape ≠
        ((mkNetwork ρ2 a2 b2 h2).hidden_layers.get ⟨i, hi2'⟩).weight.shape := by
      rw [mkNetwork_weight_shape, mkNetwork_weight_shape]
      exact hdiff
    have hcp := checkParam_snd_of_mismatch hlk hshne
    have hmsg : ("size mismatch for " ++ hiddenWeightKey i) ∈
        loadErrs (mkNetwork ρ2 a2 b2 h2) (mkNetwork ρ1 a1 b1 h1).state_dict := by
      unfold loadErrs
      refine List.mem_append.mpr (Or.inl (List.mem_append.mpr (Or.inl
        (List.mem_append.mpr (Or.inl ?_)))))
      refine List.mem_flatten.mpr
        ⟨(loadLinearAt (mkNetwork ρ1 a1 b1 h1).state_dict
            (i, (mkNetwork ρ2 a2 b2 h2).hidden_layers.get ⟨i, hi2'⟩)).2, ?_, ?_⟩
      · have hilen : i < (((mkNetwork ρ2 a2 b2 h2).hidden_layers.enum.map
            (loadLinearAt (mkNetwork ρ1 a1 b1 h1).state_dict)).map
              Prod.snd).length := by
          simp only [List.length_map, List.enum_length]
          exact hi2'
        have := List.getElem_mem hilen
        simpa [List.getElem_map, List.getElem_enum, List.get_eq_getElem]
          using this
      · unfold loadLinearAt
        dsimp only
        rw [hcp]
        exact List.mem_append.mpr (Or.inl (List.mem_singleton.mpr rfl))
    refine ⟨(loadErrs (mkNetwork ρ2 a2 b2 h2) (mkNetwork ρ1 a1 b1 h1).state_dict,
      loadedNetwork (mkNetwork ρ2 a2 b2 h2) (mkNetwork ρ1 a1 b1 h1).state_dict),
      ?_, hmsg⟩
    exact load_state_dict_error _ _ (List.ne_nil_of_mem hmsg)
  · intro i hi1 hi2 hdiff
    have hi1' : i < (mkNetwork ρ1 a1 b1 h1).hidden_layers.length := by
      rw [mkNetwork_hidden_length]; exact hi1
    have hi2' : i < (mkNetwork ρ2 a2 b2 h2).hidden_layers.length := by
      rw [mkNetwork_hidden_length]; exact hi2
    have hlk := state_dict_lookup_bias (mkNetwork ρ1 a1 b1 h1) i hi1'
    have hshne : ((mkNetwork ρ1 a1 b1 h1).hidden_layers.get ⟨i, hi1'⟩).bias.shape ≠
        ((mkNetwork ρ2 a2 b2 h2).hidden_layers.get ⟨i, hi2'⟩).bias.shape := by
      rw [mkNetwork_bias_shape, mkNetwork_bias_shape]
      intro hc
      simp only [List.cons.injEq, and_true] at hc
      exact hdiff hc
    have hcp := checkParam_snd_of_mismatch hlk hshne
    have hmsg : ("size mismatch for " ++ hiddenBiasKey i) ∈
        loadErrs (mkNetwork ρ2 a2 b2 h2) (mkNetwork ρ1 a1 b1 h1).state_dict := by
      unfold loadErrs
      refine List.mem_append.mpr (Or.inl (List.mem_append.mpr (Or.inl
        (List.mem_append.mpr (Or.inl ?_)))))
      refine List.mem_flatten.mpr
        ⟨(loadLinearAt (mkNetwork ρ1 a1 b1 h1).state_dict
            (i, (mkNetwork ρ2 a2 b2 h2).hidden_layers.get ⟨i, hi2'⟩)).2, ?_, ?_⟩
      · have hilen : i < (((mkNetwork ρ2 a2 b2 h2).hidden_layers.enum.map
            (loadLinearAt (mkNetwork ρ1 a1 b1 h1).state_dict)).map
              Prod.snd).length := by
          simp only [List.length_map, List.enum_length]
          exact hi2'
        have := List.getElem_mem hilen
        simpa [List.getElem_map, List.getElem_enum, List.get_eq_getElem]
          using this
      · unfold loadLinearAt
        dsimp only
        rw [hcp]
        exact List.mem_append.mpr (Or.inr (List.mem_singleton.mpr rfl))
    refine ⟨(loadErrs (mkNetwork ρ2 a2 b2 h2) (mkNetwork ρ1 a1 b1 h1).state_dict,
      loadedNetwork (mkNetwork ρ2 a2 b2 h2) (mkNetwork ρ1 a1 b1 h1).state_dict),
      ?_, hmsg⟩
    exact load_state_dict_error _ _ (List.ne_nil_of_mem hmsg)
  · intro hdiff
    have hlk := state_dict_lookup_outputWeight (mkNetwork ρ1 a1 b1 h1)
    have hshne : (mkNetwork ρ1 a1 b1 h1).output.weight.shape ≠
        (mkNetwork ρ2 a2 b2 h2).output.weight.shape := hdiff
    have hcp := checkParam_snd_of_mismatch hlk hshne
    have hmsg : ("size mismatch for " ++ "output.weight") ∈
        loadErrs (mkNetwork ρ2 a2 b2 h2) (mkNetwork ρ1 a1 b1 h1).state_dict := by
      unfold loadErrs
      refine List.mem_append.mpr (Or.inl (List.mem_append.mpr (Or.inl
        (List.mem_append.mpr (Or.inr ?_)))))
      rw [hcp]
      exact List.mem_singleton.mpr rfl
    refine ⟨(loadErrs (mkNetwork ρ2 a2 b2 h2) (mkNetwork ρ1 a1 b1 h1).state_dict,
      loadedNetwork (mkNetwork ρ2 a2 b2 h2) (mkNetwork ρ1 a1 b1 h1).state_dict),
      ?_, hmsg⟩
    exact load_state_dict_error _ _ (List.ne_nil_of_mem hmsg)
  · intro hdiff
    have hlk := state_dict_lookup_outputBias (mkNetwork ρ1 a1 b1 h1)
    have hshne : (mkNetwork ρ1 a1 b1 h1).output.bias.shape ≠
        (mkNetwork ρ2 a2 b2 h2).output.bias.shape := by
      intro hc
      have hc2 : ([b1] : List Nat) = [b2] := hc
      simp only [List.cons.injEq, and_true] at hc2
      exact hdiff hc2
    have hcp := checkParam_snd_of_mismatch hlk hshne
    have hmsg : ("size mismatch for " ++ "output.bias") ∈
        loadErrs (mkNetwork ρ2 a2 b2 h2) (mkNetwork ρ1 a1 b1 h1).state_dict := by
      unfold loadErrs
      refine List.mem_append.mpr (Or.inl (List.mem_append.mpr (Or.inr ?_)))
      rw [hcp]
      exact List.mem_singleton.mpr rfl
    refine ⟨(loadErrs (mkNetwork ρ2 a2 b2 h2) (mkNetwork ρ1 a1 b1 h1).state_dict,
      loadedNetwork (mkNetwork ρ2 a2 b2 h2) (mkNetwork ρ1 a1 b1 h1).state_dict),
      ?_, hmsg⟩
    exact load_state_dict_error _ _ (List.ne_nil_of_mem hmsg)
  · intro e he
    by_cases hnil : loadErrs (mkNetwork ρ2 a2 b2 h2)
        (mkNetwork ρ1 a1 b1 h1).state_dict = []
    · rw [show (mkNetwork ρ2 a2 b2 h2).load_state_dict
            (mkNetwork ρ1 a1 b1 h1).state_dict =
          Except.ok (loadedNetwork (mkNetwork ρ2 a2 b2 h2)
            (mkNetwork ρ1 a1 b1 h1).state_dict) from by
        unfold Network.load_state_dict
        rw [if_pos hnil]] at he
      exact Except.noConfusion he
    · rw [load_state_dict_error _ _ hnil] at he
      injection he with hpq
      rw [← hpq]
  · intro hb
    subst hb
    have hob : checkParam (mkNetwork ρ1 a1 b1 h1).state_dict "output.bias"
        (mkNetwork ρ2 a2 b1 h2).output.bias =
        ((mkNetwork ρ1 a1 b1 h1).output.bias, []) :=
      checkParam_eq_of_some
        (state_dict_lookup_outputBias (mkNetwork ρ1 a1 b1 h1)) rfl
    unfold loadedNetwork
    dsimp only
    rw [hob]

theorem load_state_dict_ok_iff_same_arch_witness :
    ((([4] : List Nat) ≠ []) ∧ (([5] : List Nat) ≠ [])) ∧
      ((((mkNetwork zeroInit 784 10 [5]).load_state_dict
          (mkNetwork zeroInit 784 10 [4]).state_dict).isOk = true ↔
        ((784 : Nat) = 784 ∧ (10 : Nat) = 10 ∧ ([4] : List Nat) = [5]))
      ∧ (∀ i, i < ([4] : List Nat).length → i < ([5] : List Nat).length →
          hiddenWeightShape 784 [4] i ≠ hiddenWeightShape 784 [5] i →
          ∃ e, (mkNetwork zeroInit 784 10 [5]).load_state_dict
                (mkNetwork zeroInit 784 10 [4]).state_dict = Except.error e
            ∧ ("size mismatch for " ++ hiddenWeightKey i) ∈ e.1)
      ∧ (∀ i, i < ([4] : List Nat).length → i < ([5] : List Nat).length →
          ([4] : List Nat).getD i 0 ≠ ([5] : List Nat).getD i 0 →
          ∃ e, (mkNetwork zeroInit 784 10 [5]).load_state_dict
                (mkNetwork zeroInit 784 10 [4]).state_dict = Except.error e
            ∧ ("size mismatch for " ++ hiddenBiasKey i) ∈ e.1)
      ∧ (([10, ([4] : List Nat).getLastD 784] : List Nat) ≠
            [10, ([5] : List Nat).getLastD 784] →
          ∃ e, (mkNetwork zeroInit 784 10 [5]).load_state_dict
                (mkNetwork zeroInit 784 10 [4]).state_dict = Except.error e
            ∧ ("size mismatch for " ++ "output.weight") ∈ e.1)
      ∧ ((10 : Nat) ≠ 10 →
          ∃ e, (mkNetwork zeroInit 784 10 [5]).load_state_dict
                (mkNetwork zeroInit 784 10 [4]).state_dict = Except.error e
            ∧ ("size mismatch for " ++ "output.bias") ∈ e.1)
      ∧ (∀ e, (mkNetwork zeroInit 784 10 [5]).load_state_dict
            (mkNetwork zeroInit 784 10 [4]).state_dict = Except.error e →
          e.2 = loadedNetwork (mkNetwork zeroInit 784 10 [5])
            (mkNetwork zeroInit 784 10 [4]).state_dict)
      ∧ ((10 : Nat) = 10 →
          (loadedNetwork (mkNetwork zeroInit 784 10 [5])
              (mkNetwork zeroInit 784 10 [4]).state_dict).output.bias =
            (mkNetwork zeroInit 784 10 [4]).output.bias)) :=
  ⟨⟨by decide, by decide⟩,
    load_state_dict_ok_iff_same_arch zeroInit zeroInit 784 10 784 10 [4] [5]
      (by decide) (by decide)⟩

/-! ### Claim C5 — the checkpoint dictionary's contents -/

/-- C5: the checkpoint dictionary always has exactly the keys `input_size`,
`output_size`, `hidden_layers` and `state_dict`; the `hidden_layers` entry is
the list of the hidden layers' output sizes in order; the `state_dict` entry
is the model's state dict, whose keys are exactly
`hidden_layers.<i>.weight`, `hidden_layers.<i>.bias` for each hidden index
`i` followed by `output.weight`, `output.bias`, each mapped to the model's
parameter tensor. -/
theorem checkpoint_dict_contents (ρ : Nat → Nat → Int) (a b : Nat)
    (h : List Nat) :
    checkpointKeys (mkCheckpoint (mkNetwork ρ a b h)) =
      ["input_size", "output_size", "hidden_layers", "state_dict"]
    ∧ (mkCheckpoint (mkNetwork ρ a b h)).hidden_layers = h
    ∧ (mkCheckpoint (mkNetwork ρ a b h)).state_dict =
        (mkNetwork ρ a b h).state_dict
    ∧ (mkNetwork ρ a b h).paramKeys =
        ((List.range h.length).map
          (fun i => [hiddenWeightKey i, hiddenBiasKey i])).flatten
          ++ ["output.weight", "output.bias"]
    ∧ (∀ i (hi : i < (mkNetwork ρ a b h).hidden_layers.length),
        (mkNetwork ρ a b h).state_dict.lookup (hiddenWeightKey i) =
          some (((mkNetwork ρ a b h).hidden_layers.get ⟨i, hi⟩).weight)) := by
  refine ⟨rfl, mkNetwork_out_features ρ a b h, rfl, ?_, ?_⟩
  · rw [paramKeys_eq_keyList, mkNetwork_hidden_length]
    rfl
  · intro i hi
    exact state_dict_lookup_weight _ i hi

theorem checkpoint_dict_contents_witness :
    checkpointKeys (mkCheckpoint (mkNetwork zeroInit 3 2 [4])) =
      ["input_size", "output_size", "hidden_layers", "state_dict"]
    ∧ (mkCheckpoint (mkNetwork zeroInit 3 2 [4])).hidden_layers = [4]
    ∧ (mkCheckpoint (mkNetwork zeroInit 3 2 [4])).state_dict =
        (mkNetwork zeroInit 3 2 [4]).state_dict
    ∧ (mkNetwork zeroInit 3 2 [4]).paramKeys =
        ((List.range ([4] : List Nat).length).map
          (fun i => [hiddenWeightKey i, hiddenBiasKey i])).flatten
          ++ ["output.weight", "output.bias"]
    ∧ (∀ i (hi : i < (mkNetwork zeroInit 3 2 [4]).hidden_layers.length),
        (mkNetwork zeroInit 3 2 [4]).state_dict.lookup (hiddenWeightKey i) =
          some (((mkNetwork zeroInit 3 2 [4]).hidden_layers.get ⟨i, hi⟩).weight)) :=
  checkpoint_dict_contents zeroInit 3 2 [4]

/-! ### The training loop of `3_Training_Neural_Networks`

The "training for real" cell runs, per minibatch: `optimizer.zero_grad()`,
flatten the images, `output = model(images)`, `loss = criterion(output,
labels)`, `loss.backward()`, `optimizer.step()`, `running_loss +=
loss.item()`, and after the loop prints `running_loss / len(trainloader)`.
The framework pieces (forward pass, loss value, gradient value, optimizer
update rule) are opaque to the repository, so they enter as function
parameters; autograd's gradient-accumulation discipline is modelled from the
behaviour the notebook demonstrates (`.grad` is `None` before any backward
pass, each backward pass adds into `.grad`). -/

/-- One minibatch from the train loader: a batch of 2-d images with labels. -/
structure Batch where
  images : List (List (List ℚ))
  labels : List Nat
  deriving DecidableEq

/-- `images.view(images.shape[0], -1)`: flatten each image of the batch. -/
def flattenImages (imgs : List (List (List ℚ))) : List (List ℚ) :=
  imgs.map List.flatten

/-- The optimizer's view of the model parameters (abstracted to one scalar
coordinate — the claims are about the loop discipline, not numerics) together
with the autograd `.grad` slot, which is `None` until a backward pass runs. -/
structure ParamState where
  params : ℚ
  grad : Option ℚ
  deriving DecidableEq

/-- Modelled from the spec: a freshly created parameter — `.grad` is `None`
before any backward pass (the notebook prints exactly this). -/
def freshParam (p : ℚ) : ParamState :=
  { params := p, grad := none }

/-- `optimizer.zero_grad()`: reset the gradient slot to zero. -/
def zero_grad (s : ParamState) : ParamState :=
  { s with grad := some 0 }

/-- Modelled from the spec: `loss.backward()` ADDS the gradient `g` of the
current loss into `.grad` (gradients are accumulated, as the notebook warns);
an absent gradient counts as zero. -/
def backwardAcc (g : ℚ) (s : ParamState) : ParamState :=
  { s with grad := some (s.grad.getD 0 + g) }

/-- `optimizer.step()`: consume the accumulated gradient through the
optimizer's (opaque) update rule `stepF`. -/
def optimizerStep (stepF : ℚ → ℚ → ℚ) (s : ParamState) : ParamState :=
  { s with params := stepF s.params (s.grad.getD 0) }

/-- The observable events of one epoch of the training loop, in order. -/
inductive TrainEvent where
  | zeroGradEvt : TrainEvent
  | flattenEvt : TrainEvent
  | forwardEvt : TrainEvent
  | lossEvt : ℚ → TrainEvent
  | backwardEvt : TrainEvent
  | stepEvt : ℚ → TrainEvent
  | accumulateEvt : TrainEvent
  | reportEvt : ℚ → TrainEvent
  deriving DecidableEq

/-- The result of processing one minibatch. -/
structure BatchResult where
  state : ParamState
  lossVal : ℚ
  stepGrad : ℚ
  trace : List TrainEvent

/-- One pass of the loop body of the training cell: zero the gradients,
flatten the images, forward pass, compute the loss, backward pass, optimizer
step; `lossF`/`gradF` are the framework's loss value and loss gradient at the
current parameters on the flattened batch.  `stepGrad` records the gradient
value the optimizer step consumed. -/
def runBatch (lossF gradF : ℚ → List (List ℚ) → List Nat → ℚ)
    (stepF : ℚ → ℚ → ℚ) (s : ParamState) (b : Batch) : BatchResult :=
  let s1 := zero_grad s
  let imgs := flattenImages b.images
  let l := lossF s1.params imgs b.labels
  let s2 := backwardAcc (gradF s1.params imgs b.labels) s1
  let s3 := optimizerStep stepF s2
  { state := s3, lossVal := l, stepGrad := s2.grad.getD 0,
    trace := [.zeroGradEvt, .flattenEvt, .forwardEvt, .lossEvt l,
      .backwardEvt, .stepEvt (s2.grad.getD 0), .accumulateEvt] }

/-- The result of one epoch. -/
structure EpochResult where
  state : ParamState
  running_loss : ℚ
  trace : List TrainEvent

/-- The inner `for images, labels in trainloader` loop: run every minibatch,
accumulating `running_loss` and the event trace. -/
def runBatches (lossF gradF : ℚ → List (List ℚ) → List Nat → ℚ)
    (stepF : ℚ → ℚ → ℚ) : ParamState → List Batch → EpochResult
  | s, [] => { state := s, running_loss := 0, trace := [] }
  | s, b :: bs =>
    let r := runBatch lossF gradF stepF s b
    let rest := runBatches lossF gradF stepF r.state bs
    { state := rest.state, running_loss := r.lossVal + rest.running_loss,
      trace := r.trace ++ rest.trace }

/-- One epoch of the training cell: the inner loop followed by the `else`
branch printing `running_loss / len(trainloader)`. -/
def trainEpoch (lossF gradF : ℚ → List (List ℚ) → List Nat → ℚ)
    (stepF : ℚ → ℚ → ℚ) (s : ParamState) (batches : List Batch) :
    EpochResult × ℚ :=
  let r := runBatches lossF gradF stepF s batches
  (r, r.running_loss / batches.length)

/-- The full trace of one epoch: per-batch cycles, then the report event. -/
def trainEpochTrace (lossF gradF : ℚ → List (List ℚ) → List Nat → ℚ)
    (stepF : ℚ → ℚ → ℚ) (s : ParamState) (batches : List Batch) :
    List TrainEvent :=
  (trainEpoch lossF gradF stepF s batches).1.trace
    ++ [.reportEvt (trainEpoch lossF gradF stepF s batches).2]

/-- The `loss.item()` and step-gradient values of the epoch, batch by batch,
at the parameters the loop actually reaches. -/
def epochPairs (lossF gradF : ℚ → List (List ℚ) → List Nat → ℚ)
    (stepF : ℚ → ℚ → ℚ) : ParamState → List Batch → List (ℚ × ℚ)
  | _, [] => []
  | s, b :: bs =>
    let r := runBatch lossF gradF stepF s b
    (r.lossVal, r.stepGrad) :: epochPairs lossF gradF stepF r.state bs

/-- The seven events of one forward/backward/step cycle with loss value `l`
and consumed gradient `g`. -/
def cycleEvents (p : ℚ × ℚ) : List TrainEvent :=
  [.zeroGradEvt, .flattenEvt, .forwardEvt, .lossEvt p.1, .backwardEvt,
    .stepEvt p.2, .accumulateEvt]

theorem epochPairs_length (lossF gradF : ℚ → List (List ℚ) → List Nat → ℚ)
    (stepF : ℚ → ℚ → ℚ) :
    ∀ (bs : List Batch) (s : ParamState),
      (epochPairs lossF gradF stepF s bs).length = bs.length := by
  intro bs
  induction bs with
  | nil => intro s; rfl
  | cons b bs ih => intro s; simp [epochPairs, ih]

theorem runBatches_trace_loss (lossF gradF : ℚ → List (List ℚ) → List Nat → ℚ)
    (stepF : ℚ → ℚ → ℚ) :
    ∀ (bs : List Batch) (s : ParamState),
      (runBatches lossF gradF stepF s bs).trace =
        ((epochPairs lossF gradF stepF s bs).map cycleEvents).flatten
      ∧ (runBatches lossF gradF stepF s bs).running_loss =
        ((epochPairs lossF gradF stepF s bs).map Prod.fst).sum := by
  intro bs
  induction bs with
  | nil => intro s; constructor <;> rfl
  | cons b bs ih =>
    intro s
    have ihs := ih (runBatch lossF gradF stepF s b).state
    constructor
    · show (runBatch lossF gradF stepF s b).trace ++
        (runBatches lossF gradF stepF
          (runBatch lossF gradF stepF s b).state bs).trace = _
      rw [ihs.1]
      rfl
    · show (runBatch lossF gradF stepF s b).lossVal +
        (runBatches lossF gradF stepF
          (runBatch lossF gradF stepF s b).state bs).running_loss = _
      rw [ihs.2]
      rfl

/-- C3: one epoch of the training loop performs, for every minibatch in
order, exactly one cycle of zero_grad / flatten / forward / loss /
backward / step / accumulate (one cycle per minibatch, with that batch's
`loss.item()` value and consumed gradient), and after the last minibatch
reports `running_loss` divided by the number of minibatches; flattening turns
every 28×28 image into a length-784 vector. -/
theorem trainEpoch_one_cycle_per_minibatch
    (lossF gradF : ℚ → List (List ℚ) → List Nat → ℚ) (stepF : ℚ → ℚ → ℚ)
    (s : ParamState) (batches : List Batch) :
    (epochPairs lossF gradF stepF s batches).length = batches.length
    ∧ trainEpochTrace lossF gradF stepF s batches =
        ((epochPairs lossF gradF stepF s batches).map cycleEvents).flatten
          ++ [TrainEvent.reportEvt
            (((epochPairs lossF gradF stepF s batches).map Prod.fst).sum
              / batches.length)]
    ∧ (∀ img : List (List ℚ), img.length = 28 →
        (∀ row ∈ img, row.length = 28) → img.flatten.length = 784) := by
  refine ⟨epochPairs_length lossF gradF stepF batches s, ?_, ?_⟩
  · have h := runBatches_trace_loss lossF gradF stepF batches s
    unfold trainEpochTrace trainEpoch
    dsimp only
    rw [h.1, h.2]
  · intro img h28 hrow
    rw [List.length_flatten]
    have hrep : img.map List.length = List.replicate 28 28 := by
      apply List.eq_replicate_iff.mpr
      refine ⟨by simp [h28], ?_⟩
      intro x hx
      obtain ⟨row, hmem, rfl⟩ := List.mem_map.mp hx
      exact hrow row hmem
    rw [hrep]
    simp [List.sum_replicate]

/-- A concrete loss/gradient function for witnesses. -/
def constCrit : ℚ → List (List ℚ) → List Nat → ℚ := fun _ _ _ => 1

/-- A concrete SGD-style update rule for witnesses. -/
def sgdStep : ℚ → ℚ → ℚ := fun p g => p - g

/-- A concrete one-image minibatch for witnesses. -/
def exBatch : Batch := { images := [[[1, 2], [3, 4]]], labels := [0] }

theorem trainEpoch_one_cycle_per_minibatch_witness :
    (epochPairs constCrit constCrit sgdStep (freshParam 0) [exBatch]).length =
      ([exBatch] : List Batch).length
    ∧ trainEpochTrace constCrit constCrit sgdStep (freshParam 0) [exBatch] =
        ((epochPairs constCrit constCrit sgdStep (freshParam 0)
          [exBatch]).map cycleEvents).flatten
          ++ [TrainEvent.reportEvt
            (((epochPairs constCrit constCrit sgdStep (freshParam 0)
              [exBatch]).map Prod.fst).sum / ([exBatch] : List Batch).length)]
    ∧ (∀ img : List (List ℚ), img.length = 28 →
        (∀ row ∈ img, row.length = 28) → img.flatten.length = 784) :=
  trainEpoch_one_cycle_per_minibatch constCrit constCrit sgdStep
    (freshParam 0) [exBatch]

/-- C7: gradient accumulation.  A fresh parameter's `.grad` is `None`; each
`loss.backward()` adds into `.grad` (two backward passes without zeroing
accumulate both gradients); and because the loop zeroes the gradients before
every backward pass, the gradient each `optimizer.step()` consumes is exactly
the gradient of the current minibatch at the current parameters, whatever was
in `.grad` before the cycle started. -/
theorem gradient_accumulation_discipline
    (lossF gradF : ℚ → List (List ℚ) → List Nat → ℚ) (stepF : ℚ → ℚ → ℚ)
    (p g1 g2 : ℚ) (s : ParamState) (b : Batch) :
    (freshParam p).grad = none
    ∧ (backwardAcc g2 (backwardAcc g1 s)).grad =
        some (s.grad.getD 0 + g1 + g2)
    ∧ (backwardAcc g1 (freshParam p)).grad = some (0 + g1)
    ∧ (runBatch lossF gradF stepF s b).stepGrad =
        gradF s.params (flattenImages b.images) b.labels
    ∧ (runBatch lossF gradF stepF s b).state.grad =
        some (gradF s.params (flattenImages b.images) b.labels) := by
  refine ⟨rfl, by simp [backwardAcc], rfl, ?_, ?_⟩
  · show (backwardAcc (gradF s.params (flattenImages b.images) b.labels)
      (zero_grad s)).grad.getD 0 = _
    simp [backwardAcc, zero_grad]
  · show (optimizerStep stepF (backwardAcc
      (gradF s.params (flattenImages b.images) b.labels)
      (zero_grad s))).grad = _
    simp [backwardAcc, zero_grad, optimizerStep]

/-! ### The concrete classifier models the notebooks construct -/

/-- One module of an `nn.Sequential`-style chain. -/
inductive LayerSpec where
  | linear : Nat → Nat → LayerSpec
  | relu : LayerSpec
  | dropout : ℚ → LayerSpec
  | logSoftmax : Nat → LayerSpec
  deriving DecidableEq

/-- The loss criterion a model is trained against. -/
inductive Criterion where
  | crossEntropy : Criterion
  | nllCriterion : Criterion
  deriving DecidableEq

/-- The cross-entropy model of the first loss cell:
`nn.Sequential(Linear(784,128), ReLU, Linear(128,64), ReLU, Linear(64,10))`
with `nn.CrossEntropyLoss` on the raw logits. -/
def seqModelLogits : List LayerSpec :=
  [.linear 784 128, .relu, .linear 128 64, .relu, .linear 64 10]

/-- The log-softmax model of the exercise cell:
the same chain with `nn.LogSoftmax(dim=1)` appended, trained with
`nn.NLLLoss`. -/
def seqModelLogSoftmax : List LayerSpec :=
  [.linear 784 128, .relu, .linear 128 64, .relu, .linear 64 10,
    .logSoftmax 1]

/-- The model of the "loss and autograd together" cell (same architecture as
`seqModelLogSoftmax`, rebuilt in the notebook). -/
def seqModelAutograd : List LayerSpec :=
  [.linear 784 128, .relu, .linear 128 64, .relu, .linear 64 10,
    .logSoftmax 1]

/-- The model of the "training for real" cell (again the same chain). -/
def seqModelTraining : List LayerSpec :=
  [.linear 784 128, .relu, .linear 128 64, .relu, .linear 64 10,
    .logSoftmax 1]

/-- Modelled from the spec: the module chain `fc_model.Network`'s forward
pass applies — each hidden `Linear` followed by ReLU and `Dropout(0.5)`,
then the output `Linear` and `log_softmax` (the notebook's repr lists the
hidden layers, the output layer and the dropout module; it is trained with
`nn.NLLLoss`). -/
def fcNetworkLayers (input_size output_size : Nat) (hidden : List Nat) :
    List LayerSpec :=
  ((layerSizePairs input_size hidden).map (fun p =>
    [LayerSpec.linear p.1 p.2, LayerSpec.relu, LayerSpec.dropout (1 / 2)])).flatten
  ++ [LayerSpec.linear (hidden.getLastD input_size) output_size,
    LayerSpec.logSoftmax 1]

/-- Every classifier the two notebooks construct, with its criterion: the
three `nn.Sequential` cells over MNIST, plus the two `fc_model.Network`
instances over FashionMNIST (`Network(784, 10, [512, 256, 128])` trained and
saved, and `Network(784, 10, [400, 200, 100])` built before reloading). -/
def notebookModels : List (List LayerSpec × Criterion) :=
  [(seqModelLogits, .crossEntropy),
    (seqModelLogSoftmax, .nllCriterion),
    (seqModelAutograd, .nllCriterion),
    (seqModelTraining, .nllCriterion),
    (fcNetworkLayers 784 10 [512, 256, 128], .nllCriterion),
    (fcNetworkLayers 784 10 [400, 200, 100], .nllCriterion)]

/-- The (in, out) dimensions of the linear layers of a chain, in order. -/
def linearDims (m : List LayerSpec) : List (Nat × Nat) :=
  m.filterMap (fun l => match l with
    | .linear a b => some (a, b)
    | _ => none)

/-- Do the linear layers chain, each one's output feeding the next's input? -/
def chainOkB : List (Nat × Nat) → Bool
  | [] => true
  | [_] => true
  | p :: q :: rest => (p.2 == q.1) && chainOkB (q :: rest)

/-- Is this module a `Dropout`? -/
def isDropout : LayerSpec → Bool
  | .dropout _ => true
  | _ => false

/-- Split the chain at each `Linear`, collecting the module runs strictly
between consecutive linear layers. -/
def gapsAux : List LayerSpec → List LayerSpec → List (List LayerSpec)
  | _, [] => []
  | acc, .linear _ _ :: rest => acc.reverse :: gapsAux [] rest
  | acc, l :: rest => gapsAux (l :: acc) rest

/-- The module runs strictly between consecutive linear layers. -/
def betweenLinearGaps (m : List LayerSpec) : List (List LayerSpec) :=
  (gapsAux [] m).drop 1

/-- Does a `Dropout` module sit between every two consecutive linear
layers? -/
def dropoutBetweenLinearsB (m : List LayerSpec) : Bool :=
  (betweenLinearGaps m).all (fun g => g.any isDropout)

/-- Is the training objective softmax-style: either cross-entropy on the raw
logits (no log-softmax layer), or NLL on a chain ending in log-softmax? -/
def softmaxObjectiveB (m : List LayerSpec × Criterion) : Bool :=
  match m.2 with
  | .crossEntropy => !(m.1.any (fun l => match l with
      | .logSoftmax _ => true
      | _ => false))
  | .nllCriterion => match m.1.getLast? with
    | some (.logSoftmax _) => true
    | _ => false

/-- The property claim C4 asserts of every notebook model. -/
def claimC4B (m : List LayerSpec × Criterion) : Bool :=
  chainOkB (linearDims m.1) && dropoutBetweenLinearsB m.1
    && softmaxObjectiveB m

/-- The first linear layer's input dimension. -/
def firstLinearIn (m : List LayerSpec) : Option Nat :=
  (linearDims m).head?.map Prod.fst

/-- The last linear layer's output dimension. -/
def lastLinearOut (m : List LayerSpec) : Option Nat :=
  (linearDims m).getLast?.map Prod.snd

/-! ### Claim C4 — layer chains, dropout and the training objective -/

/-- C4 (counterexample): the claim that EVERY network the notebooks construct
has a `Dropout` module between consecutive hidden layers is false: the
`nn.Sequential` models of the training notebook interleave their linear
layers with `ReLU` only — concretely, the "training for real" model
`nn.Sequential(Linear(784,128), ReLU, Linear(128,64), ReLU, Linear(64,10),
LogSoftmax(dim=1))` contains no `Dropout` at all, so the conjunction claimed
for all models fails. -/
theorem notebookModels_not_all_dropout :
    notebookModels.all claimC4B = false ∧
      dropoutBetweenLinearsB seqModelTraining = false ∧
      (seqModelTraining, Criterion.nllCriterion) ∈ notebookModels := by
  refine ⟨by decide, by decide, ?_⟩
  unfold notebookModels
  exact List.mem_cons.mpr (Or.inr (List.mem_cons.mpr (Or.inr
    (List.mem_cons.mpr (Or.inr (List.mem_cons_self _ _))))))

/-- C4 (amended): every classifier the notebooks construct is a chain of
linear layers whose dimensions compose, trained against a softmax-style
objective (cross-entropy on raw logits, or NLL after a final log-softmax);
dropout between consecutive hidden layers holds for the `fc_model.Network`
models but not for the `nn.Sequential` models, which use ReLU only. -/
theorem notebookModels_linear_chain_softmax :
    notebookModels.all
      (fun m => chainOkB (linearDims m.1) && softmaxObjectiveB m) = true
    ∧ dropoutBetweenLinearsB (fcNetworkLayers 784 10 [512, 256, 128]) = true
    ∧ dropoutBetweenLinearsB (fcNetworkLayers 784 10 [400, 200, 100]) = true := by
  refine ⟨by decide, by decide, by decide⟩

/-! ### Claim C8 — 784-dimensional inputs, 10 outputs -/

/-- C8: every classifier model the notebooks construct takes 784-dimensional
flattened image vectors and produces exactly 10 class scores or
log-probabilities, in the MNIST `nn.Sequential` cells as well as the
FashionMNIST `fc_model.Network` instances. -/
theorem notebookModels_784_in_10_out :
    notebookModels.all (fun m =>
      firstLinearIn m.1 == some 784 && lastLinearOut m.1 == some 10) = true
    ∧ (mkNetwork zeroInit 784 10 [512, 256, 128]).input_size = 784
    ∧ (mkNetwork zeroInit 784 10 [512, 256, 128]).output.out_features = 10 := by
  refine ⟨by decide, rfl, rfl⟩

/-! ### Claim C6 — cross-entropy = log-softmax + negative log likelihood

Modelled from the spec: the two loss formulations the notebook uses.
`nn.CrossEntropyLoss` takes the raw scores and computes
`-log(exp(x[class]) / Σ exp(x[j]))` per sample; `nn.LogSoftmax(dim=1)`
takes row-wise `log(softmax(x))`; `nn.NLLLoss` negates the chosen
log-probability.  Both criteria average over the batch.  Floating point is
modelled by the exact reals. -/

/-- Row-wise softmax of a score vector. -/
noncomputable def softmax (z : List ℝ) : List ℝ :=
  z.map (fun a => Real.exp a / (z.map Real.exp).sum)

/-- `nn.LogSoftmax(dim=1)` on one row: the logarithm of the softmax. -/
noncomputable def logSoftmaxR (z : List ℝ) : List ℝ :=
  (softmax z).map Real.log

/-- `nn.NLLLoss` on one sample: minus the chosen log-probability. -/
noncomputable def nllLossSingle (logp : List ℝ) (y : Nat) : ℝ :=
  -(logp.getD y 0)

/-- `nn.CrossEntropyLoss` on one sample of raw scores. -/
noncomputable def crossEntropySingle (z : List ℝ) (y : Nat) : ℝ :=
  -Real.log (Real.exp (z.getD y 0) / (z.map Real.exp).sum)

/-- `nn.CrossEntropyLoss` on a batch of (scores, label) pairs (mean
reduction). -/
noncomputable def crossEntropyLoss (batch : List (List ℝ × Nat)) : ℝ :=
  (batch.map (fun p => crossEntropySingle p.1 p.2)).sum / batch.length

/-- `nn.NLLLoss` on a batch of (log-probabilities, label) pairs (mean
reduction). -/
noncomputable def nllLoss (batch : List (List ℝ × Nat)) : ℝ :=
  (batch.map (fun p => nllLossSingle p.1 p.2)).sum / batch.length

/-- Appending an `nn.LogSoftmax(dim=1)` module to the network: every row of
raw scores is replaced by its log-softmax. -/
noncomputable def appendLogSoftmax (batch : List (List ℝ × Nat)) :
    List (List ℝ × Nat) :=
  batch.map (fun p => (logSoftmaxR p.1, p.2))

theorem crossEntropy_eq_nll_logSoftmax_single (z : List ℝ) (y : Nat)
    (hy : y < z.length) :
    crossEntropySingle z y = nllLossSingle (logSoftmaxR z) y := by
  unfold crossEntropySingle nllLossSingle logSoftmaxR softmax
  have hly : y <
      ((z.map (fun a => Real.exp a / (z.map Real.exp).sum)).map
        Real.log).length := by
    simp [hy]
  rw [List.getD_eq_getElem _ _ hly, List.getElem_map, List.getElem_map,
    List.getD_eq_getElem _ _ hy]

/-- C6: for every batch of logits with in-range labels,
`nn.CrossEntropyLoss` on the raw network output equals `nn.NLLLoss` on the
output of the same network with `nn.LogSoftmax(dim=1)` appended:
cross-entropy is the composition of log-softmax and negative log
likelihood. -/
theorem crossEntropy_eq_nll_logSoftmax (batch : List (List ℝ × Nat))
    (hvalid : ∀ p ∈ batch, p.2 < p.1.length) :
    crossEntropyLoss batch = nllLoss (appendLogSoftmax batch) := by
  unfold crossEntropyLoss nllLoss appendLogSoftmax
  rw [List.length_map, List.map_map]
  congr 1
  refine congrArg List.sum ?_
  apply List.map_congr_left
  intro p hp
  exact crossEntropy_eq_nll_logSoftmax_single p.1 p.2 (hvalid p hp)

theorem crossEntropy_eq_nll_logSoftmax_witness :
    crossEntropyLoss [([0, 1], 0)] =
      nllLoss (appendLogSoftmax [([0, 1], 0)]) :=
  crossEntropy_eq_nll_logSoftmax [([0, 1], 0)]
    (by
      intro p hp
      rw [List.mem_singleton] at hp
      subst hp
      simp)
